import Mathlib

/-!
# Verification of the garden-of-tasks cache/sync reconciler

Shallow embedding of the task cache and sync reconciliation logic of the
browser application (src/App.tsx, src/services/taskStorage.ts,
src/components/AsanaConnect.tsx).

Modelling conventions:
* Timestamps (both `Date.now()` millisecond numbers and ISO-8601 strings,
  which are order-isomorphic to their millisecond values) are `Int`
  milliseconds.
* The JavaScript `Map` used for merge-by-identifier is an insertion-ordered
  association list `TaskMap`; `mapSet` reproduces `Map.prototype.set`
  (update-in-place keeps the position of an existing key, a new key appends
  at the end) and `Array.from(map.values())` is `List.map Prod.snd`.
* The remote task source is a parameter `fetchFn : Int → FetchPhase` mapping
  the `completed_since` lower bound actually queried to the outcome of the
  whole user-lookup/pagination phase; `FetchPhase.tasks records` is the
  concatenation of the completed records of all pages.
* The code reads the wall clock at several points of one operation.  `Env.t0`
  is the reading taken when the operation computes its default lookback
  bounds (`getThirtyDaysAgoISOString` / `getOneYearAgoISOString`), `Env.t1`
  the reading taken when `taskStorage.saveTasks` / `saveLastSyncDate` run
  after the network fetch has completed; in a real run t0 ≤ t1 and the two
  differ whenever network awaits happened in between.
* `Math.random()`-driven day offsets of the mock generator are the parameter
  `Env.rand`.
-/

namespace Garden

/-- A task record as the reconciler sees it: the vendor identifier `gid`
(optional, because the code defends against records lacking one), the local
`id` field that only mock records carry, plus the `name`, `completed` and
`completed_at` fields requested via `opt_fields`.  The constant
`resource_type: 'task'` of mock records is omitted as it is never read. -/
structure Task where
  gid : Option String
  id : Option String
  name : String
  completed : Bool
  completed_at : Int
deriving DecidableEq

/-- Persisted cache snapshot (`TaskCache` in taskStorage.ts): the task list
plus the `Date.now()` capture timestamp. -/
structure TaskCache where
  tasks : List Task
  timestamp : Int
deriving DecidableEq

/-- The three persisted values: the bearer token, the task cache snapshot and
the incremental sync cursor (`garden_tasks_last_sync`).  A corrupt or absent
persisted value is `none`. -/
structure Storage where
  token : Option String
  cache : Option TaskCache
  lastSync : Option Int
deriving DecidableEq

/-- In-memory React state of `App` together with the persisted storage:
`tokenState` is the `token` state hook, `displayed` the `tasks` hook,
and `loading` / `error` / `autoRefreshing` the corresponding hooks. -/
structure AppState where
  storage : Storage
  tokenState : Option String
  displayed : List Task
  loading : Bool
  error : Option String
  autoRefreshing : Bool
deriving DecidableEq

/-- Ambient inputs of one reconciler operation: the random day offsets used
by the mock generator, the clock reading `t0` at the start of the operation
(used for the 30-day / 1-year lookback bounds) and the clock reading `t1`
when the merged result is saved after the fetch. -/
structure Env where
  rand : Nat → Nat
  t0 : Int
  t1 : Int

/-- taskStorage.getTasks: the cached task list, `[]` when the snapshot is
absent or unparsable. -/
def cacheTasks (st : Storage) : List Task :=
  match st.cache with
  | none => []
  | some c => c.tasks

/-- An insertion-ordered map from identifiers to task records, modelling the
JavaScript `Map` built by the merge code. -/
abbrev TaskMap := List (String × Task)

/-- `Map.prototype.set`: overwrite in place when the key is present (keeping
its position), append at the end otherwise. -/
def mapSet : TaskMap → String → Task → TaskMap
  | [], k, v => [(k, v)]
  | (k', v') :: rest, k, v =>
    if k' = k then (k, v) :: rest else (k', v') :: mapSet rest k v

/-- `Map.prototype.get` (up to `Option`). -/
def mapLookup (q : String) : TaskMap → Option Task
  | [] => none
  | (k', v') :: rest => if k' = q then some v' else mapLookup q rest

/-- The keys of the map in insertion order. -/
def mapKeys (m : TaskMap) : List String := m.map Prod.fst

/-- One step of the merge loops of `autoRefreshTasks` and
`fetchTasksForToken`: a record lacking a `gid` is skipped (`if (!taskId)
return` / the `else` warning branch), otherwise `taskMap.set(taskId, task)`. -/
def insertTask (m : TaskMap) (t : Task) : TaskMap :=
  match t.gid with
  | none => m
  | some g => mapSet m g t

/-- Folding a whole record list into the map with `insertTask`, i.e. the
`forEach` loops over `existingTasks` and `newTasks`. -/
def insertAll (m : TaskMap) (ts : List Task) : TaskMap := ts.foldl insertTask m

/-- The merge map built by both merge sites (App.tsx lines 136-162 and
417-506): seed from the cached records, then apply the incoming records in
source-response order. -/
def mergedMap (existing incoming : List Task) : TaskMap :=
  insertAll (insertAll [] existing) incoming

/-- `Array.from(taskMap.values())`: the merged task list. -/
def mergeTasks (existing incoming : List Task) : List Task :=
  (mergedMap existing incoming).map Prod.snd

/-- Left-biased choice on optional tasks (`a` wins when present). -/
def optOr : Option Task → Option Task → Option Task
  | some x, _ => some x
  | none, b => b

/-- The last record of `ts` carrying identifier `g`, if any: the value a
sequence of `Map.set` calls leaves under the key `g`. -/
def lastWith (g : String) (ts : List Task) : Option Task :=
  ts.foldl (fun acc t => if t.gid = some g then some t else acc) none

/-- The identifiers of `ts` that are not in `ks`, first occurrence only, in
source order: the keys a fold of `insertTask` appends after existing keys
`ks`. -/
def newKeys : List String → List Task → List String
  | _, [] => []
  | ks, t :: rest =>
    match t.gid with
    | none => newKeys ks rest
    | some g => if g ∈ ks then newKeys ks rest else g :: newKeys (ks ++ [g]) rest

/-- Every entry of the map stores a record actually carrying its key as
identifier. -/
def goodMap (m : TaskMap) : Prop := ∀ p ∈ m, p.2.gid = some p.1

theorem mapLookup_mapSet (m : TaskMap) (q k : String) (v : Task) :
    mapLookup q (mapSet m k v) = if k = q then some v else mapLookup q m := by
  induction m with
  | nil => by_cases hq : k = q <;> simp [mapSet, mapLookup, hq]
  | cons p rest ih =>
    obtain ⟨k', v'⟩ := p
    by_cases hk : k' = k
    · subst hk
      by_cases hq : k' = q <;> simp [mapSet, mapLookup, hq]
    · by_cases hq : k' = q
      · subst hq
        have : ¬ k = k' := fun h => hk h.symm
        simp [mapSet, mapLookup, hk, this]
      · simp [mapSet, mapLookup, hk, hq, ih]

theorem mapKeys_mapSet (m : TaskMap) (k : String) (v : Task) :
    mapKeys (mapSet m k v) =
      if k ∈ mapKeys m then mapKeys m else mapKeys m ++ [k] := by
  induction m with
  | nil => simp [mapSet, mapKeys]
  | cons p rest ih =>
    obtain ⟨k', v'⟩ := p
    by_cases hk : k' = k
    · subst hk
      simp [mapSet, mapKeys]
    · have hne : ¬ k = k' := fun h => hk h.symm
      simp only [mapSet, if_neg hk, mapKeys, List.map_cons]
      simp only [mapKeys] at ih
      rw [ih]
      by_cases hmem : k ∈ rest.map Prod.fst <;>
        simp [List.mem_cons, hmem, hne]

theorem lastWith_foldl (g : String) (ts : List Task) (init : Option Task) :
    ts.foldl (fun acc t => if t.gid = some g then some t else acc) init
      = optOr (lastWith g ts) init := by
  induction ts generalizing init with
  | nil => cases init <;> simp [lastWith, optOr]
  | cons t rest ih =>
    show rest.foldl _ (if t.gid = some g then some t else init) = _
    rw [ih]
    have h2 : lastWith g (t :: rest)
        = optOr (lastWith g rest) (if t.gid = some g then some t else none) := by
      show rest.foldl _ (if t.gid = some g then some t else none) = _
      rw [ih]
    rw [h2]
    cases lastWith g rest <;> by_cases hp : t.gid = some g <;> simp [optOr, hp]

theorem optOr_none (a : Option Task) : optOr a none = a := by
  cases a <;> rfl

theorem mapLookup_insertTask (m : TaskMap) (t : Task) (q : String) :
    mapLookup q (insertTask m t)
      = if t.gid = some q then some t else mapLookup q m := by
  cases hg : t.gid with
  | none => simp [insertTask, hg]
  | some g =>
    rw [insertTask, hg, mapLookup_mapSet]
    by_cases h : g = q <;> simp [h]

theorem mapLookup_insertAll (q : String) (ts : List Task) (m : TaskMap) :
    mapLookup q (insertAll m ts) = optOr (lastWith q ts) (mapLookup q m) := by
  induction ts generalizing m with
  | nil => simp [insertAll, lastWith, optOr]
  | cons t rest ih =>
    show mapLookup q (insertAll (insertTask m t) rest) = _
    rw [ih, mapLookup_insertTask]
    have h2 : lastWith q (t :: rest)
        = optOr (lastWith q rest) (if t.gid = some q then some t else none) := by
      show rest.foldl _ (if t.gid = some q then some t else none) = _
      rw [lastWith_foldl]
    rw [h2]
    cases lastWith q rest <;> by_cases hp : t.gid = some q <;> simp [optOr, hp]

theorem mapKeys_insertAll (ts : List Task) (m : TaskMap) :
    mapKeys (insertAll m ts) = mapKeys m ++ newKeys (mapKeys m) ts := by
  induction ts generalizing m with
  | nil => simp [insertAll, newKeys]
  | cons t rest ih =>
    show mapKeys (insertAll (insertTask m t) rest) = _
    rw [ih]
    cases hg : t.gid with
    | none => simp [insertTask, hg, newKeys]
    | some g =>
      simp only [insertTask, hg, newKeys]
      by_cases hmem : g ∈ mapKeys m
      · rw [mapKeys_mapSet, if_pos hmem, if_pos hmem]
      · rw [mapKeys_mapSet, if_neg hmem, if_neg hmem]
        simp

theorem goodMap_nil : goodMap [] := by
  intro p hp
  simp at hp

theorem goodMap_mapSet {m : TaskMap} {k : String} {v : Task}
    (h : goodMap m) (hv : v.gid = some k) : goodMap (mapSet m k v) := by
  induction m with
  | nil =>
    intro p hp
    simp [mapSet] at hp
    subst hp
    exact hv
  | cons q rest ih =>
    obtain ⟨k', v'⟩ := q
    have htail : goodMap rest := fun p hp => h p (List.mem_cons_of_mem _ hp)
    by_cases hk : k' = k
    · subst hk
      intro p hp
      simp [mapSet] at hp
      rcases hp with hp | hp
      · subst hp; exact hv
      · exact h p (List.mem_cons_of_mem _ hp)
    · intro p hp
      simp only [mapSet, if_neg hk, List.mem_cons] at hp
      rcases hp with hp | hp
      · subst hp; exact h (k', v') (List.mem_cons_self _ _)
      · exact ih htail p hp

theorem goodMap_insertAll {m : TaskMap} (ts : List Task)
    (h : goodMap m) : goodMap (insertAll m ts) := by
  induction ts generalizing m with
  | nil => exact h
  | cons t rest ih =>
    show goodMap (insertAll (insertTask m t) rest)
    apply ih
    cases hg : t.gid with
    | none => simpa [insertTask, hg] using h
    | some g =>
      rw [insertTask, hg]
      exact goodMap_mapSet h hg

theorem nodupKeys_mapSet {m : TaskMap} {k : String} {v : Task}
    (h : (mapKeys m).Nodup) : (mapKeys (mapSet m k v)).Nodup := by
  rw [mapKeys_mapSet]
  by_cases hmem : k ∈ mapKeys m
  · simpa [hmem]
  · rw [if_neg hmem]
    rw [List.nodup_append]
    refine ⟨h, List.nodup_singleton k, ?_⟩
    intro a ha hb
    simp at hb
    subst hb
    exact hmem ha

theorem nodupKeys_insertAll {m : TaskMap} (ts : List Task)
    (h : (mapKeys m).Nodup) : (mapKeys (insertAll m ts)).Nodup := by
  induction ts generalizing m with
  | nil => exact h
  | cons t rest ih =>
    show (mapKeys (insertAll (insertTask m t) rest)).Nodup
    apply ih
    cases hg : t.gid with
    | none => simpa [insertTask, hg] using h
    | some g =>
      rw [insertTask, hg]
      exact nodupKeys_mapSet h

theorem mapLookup_eq_none_iff (m : TaskMap) (q : String) :
    mapLookup q m = none ↔ q ∉ mapKeys m := by
  induction m with
  | nil => simp [mapLookup, mapKeys]
  | cons p rest ih =>
    obtain ⟨k', v'⟩ := p
    by_cases hk : k' = q
    · subst hk
      simp [mapLookup, mapKeys]
    · have hqk : ¬ q = k' := fun h => hk h.symm
      simp [mapLookup, mapKeys, hk, hqk, ih]

theorem mapSet_eq_append {m : TaskMap} {k : String} (v : Task)
    (h : k ∉ mapKeys m) : mapSet m k v = m ++ [(k, v)] := by
  induction m with
  | nil => simp [mapSet]
  | cons p rest ih =>
    obtain ⟨k', v'⟩ := p
    have hk : ¬ k' = k := by
      intro hcontra
      exact h (by simp [mapKeys, hcontra])
    have htail : k ∉ mapKeys rest := by
      intro hcontra
      exact h (by simp [mapKeys] at hcontra ⊢; exact Or.inr hcontra)
    simp [mapSet, hk, ih htail]

theorem mapSet_self {m : TaskMap} {k : String} {v : Task}
    (h : mapLookup k m = some v) : mapSet m k v = m := by
  induction m with
  | nil => simp [mapLookup] at h
  | cons p rest ih =>
    obtain ⟨k', v'⟩ := p
    by_cases hk : k' = k
    · subst hk
      simp [mapLookup] at h
      simp [mapSet, h]
    · simp only [mapLookup, if_neg hk] at h
      simp [mapSet, hk, ih h]

theorem mapExt (m₁ : TaskMap) : ∀ m₂ : TaskMap,
    mapKeys m₁ = mapKeys m₂ → (∀ q, mapLookup q m₁ = mapLookup q m₂) →
    (mapKeys m₁).Nodup → m₁ = m₂ := by
  induction m₁ with
  | nil =>
    intro m₂ hkeys _ _
    cases m₂ with
    | nil => rfl
    | cons p rest => simp [mapKeys] at hkeys
  | cons p r₁ ih =>
    intro m₂ hkeys hlook hnodup
    obtain ⟨k, v⟩ := p
    cases m₂ with
    | nil => simp [mapKeys] at hkeys
    | cons p₂ r₂ =>
      obtain ⟨k₂, v₂⟩ := p₂
      simp only [mapKeys, List.map_cons, List.cons.injEq] at hkeys
      obtain ⟨hk, htl⟩ := hkeys
      subst hk
      have hv : v = v₂ := by
        have := hlook k
        simp [mapLookup] at this
        exact this
      subst hv
      have hnotr₁ : k ∉ mapKeys r₁ := by
        simp only [mapKeys, List.map_cons, List.nodup_cons] at hnodup
        exact hnodup.1
      have hnotr₂ : k ∉ mapKeys r₂ := by
        show k ∉ List.map Prod.fst r₂
        rw [← htl]
        exact hnotr₁
      have htails : ∀ q, mapLookup q r₁ = mapLookup q r₂ := by
        intro q
        by_cases hq : q = k
        · subst hq
          rw [(mapLookup_eq_none_iff r₁ q).mpr hnotr₁,
            (mapLookup_eq_none_iff r₂ q).mpr hnotr₂]
        · have := hlook q
          have hkq : ¬ k = q := fun h => hq h.symm
          simpa [mapLookup, hkq] using this
      have hnodtl : (mapKeys r₁).Nodup := by
        simp only [mapKeys, List.map_cons, List.nodup_cons] at hnodup
        exact hnodup.2
      rw [ih r₂ (by show List.map Prod.fst r₁ = List.map Prod.fst r₂; exact htl)
        htails hnodtl]

theorem lastWith_ne_none {t : Task} {ts : List Task} {g : String}
    (h : t ∈ ts) (hg : t.gid = some g) : lastWith g ts ≠ none := by
  induction ts with
  | nil => simp at h
  | cons t' rest ih =>
    have hstep : lastWith g (t' :: rest)
        = optOr (lastWith g rest) (if t'.gid = some g then some t' else none) := by
      show rest.foldl _ (if t'.gid = some g then some t' else none) = _
      rw [lastWith_foldl]
    rw [hstep]
    rcases List.mem_cons.mp h with h | h
    · subst h
      cases lastWith g rest <;> simp [optOr, hg]
    · have := ih h
      cases hl : lastWith g rest
      · exact absurd hl this
      · simp [optOr]

theorem lastWith_none_of_not_mem {ts : List Task} {g : String}
    (h : g ∉ ts.filterMap Task.gid) : lastWith g ts = none := by
  induction ts with
  | nil => rfl
  | cons t' rest ih =>
    have hstep : lastWith g (t' :: rest)
        = optOr (lastWith g rest) (if t'.gid = some g then some t' else none) := by
      show rest.foldl _ (if t'.gid = some g then some t' else none) = _
      rw [lastWith_foldl]
    rw [hstep]
    cases hgid : t'.gid with
    | none =>
      have htail : g ∉ rest.filterMap Task.gid := by
        intro hc
        apply h
        rw [List.filterMap_cons, hgid]
        exact hc
      simp [ih htail, optOr, hgid]
    | some g' =>
      have hne : g' ≠ g := by
        intro hcontra
        subst hcontra
        apply h
        rw [List.filterMap_cons, hgid]
        exact List.mem_cons_self _ _
      have htail : g ∉ rest.filterMap Task.gid := by
        intro hc
        apply h
        rw [List.filterMap_cons, hgid]
        exact List.mem_cons_of_mem _ hc
      have hng : ¬ t'.gid = some g := by simp [hgid, hne]
      simp [ih htail, optOr, hng, hne]

theorem lastWith_unique {ts : List Task} {t : Task} {g : String}
    (hnodup : (ts.filterMap Task.gid).Nodup) (hmem : t ∈ ts)
    (hg : t.gid = some g) : lastWith g ts = some t := by
  induction ts with
  | nil => simp at hmem
  | cons t' rest ih =>
    have hstep : lastWith g (t' :: rest)
        = optOr (lastWith g rest) (if t'.gid = some g then some t' else none) := by
      show rest.foldl _ (if t'.gid = some g then some t' else none) = _
      rw [lastWith_foldl]
    rw [hstep]
    rcases List.mem_cons.mp hmem with hh | hh
    · subst hh
      have hnot : g ∉ rest.filterMap Task.gid := by
        rw [List.filterMap_cons, hg] at hnodup
        exact (List.nodup_cons.mp hnodup).1
      rw [lastWith_none_of_not_mem hnot]
      simp [optOr, hg]
    · have htailnodup : (rest.filterMap Task.gid).Nodup := by
        rw [List.filterMap_cons] at hnodup
        cases hgid2 : t'.gid with
        | none =>
          rw [hgid2] at hnodup
          exact hnodup
        | some b =>
          rw [hgid2] at hnodup
          exact (List.nodup_cons.mp hnodup).2
      rw [ih htailnodup hh]
      simp [optOr]

theorem newKeys_eq_nil {ks : List String} {ts : List Task}
    (h : ∀ t ∈ ts, ∀ g, t.gid = some g → g ∈ ks) : newKeys ks ts = [] := by
  induction ts with
  | nil => rfl
  | cons t rest ih =>
    have htail : ∀ t' ∈ rest, ∀ g, t'.gid = some g → g ∈ ks :=
      fun t' ht' => h t' (List.mem_cons_of_mem _ ht')
    cases hg : t.gid with
    | none => simp [newKeys, hg, ih htail]
    | some g =>
      have : g ∈ ks := h t (List.mem_cons_self _ _) g hg
      simp [newKeys, hg, this, ih htail]

theorem mapKeys_append (m₁ m₂ : TaskMap) :
    mapKeys (m₁ ++ m₂) = mapKeys m₁ ++ mapKeys m₂ := by
  simp [mapKeys]

theorem filterMap_gid_of_goodMap {m : TaskMap} (h : goodMap m) :
    (m.map Prod.snd).filterMap Task.gid = mapKeys m := by
  induction m with
  | nil => rfl
  | cons p rest ih =>
    obtain ⟨k, v⟩ := p
    have hv : v.gid = some k := h (k, v) (List.mem_cons_self _ _)
    have htail : goodMap rest := fun q hq => h q (List.mem_cons_of_mem _ hq)
    simp [List.filterMap_cons, hv, mapKeys, ih htail]

/-- Rebuilding the merge map from its own value list (as the next merge does
when it reads the saved task list back) reproduces the map: the fold of
`insertTask` over `M.map Prod.snd`, started from any accumulator whose keys
avoid those of `M`, appends `M` itself. -/
theorem insertAll_of_map_snd : ∀ M : TaskMap, goodMap M → (mapKeys M).Nodup →
    ∀ acc : TaskMap, (∀ g ∈ mapKeys M, g ∉ mapKeys acc) →
    insertAll acc (M.map Prod.snd) = acc ++ M := by
  intro M
  induction M with
  | nil =>
    intro _ _ acc _
    simp [insertAll]
  | cons p rest ih =>
    obtain ⟨k, v⟩ := p
    intro hgood hnodup acc hdisj
    have hv : v.gid = some k := hgood (k, v) (List.mem_cons_self _ _)
    have hknot : k ∉ mapKeys acc := hdisj k (by simp [mapKeys])
    show insertAll (insertTask acc v) (rest.map Prod.snd) = acc ++ (k, v) :: rest
    have h1 : insertTask acc v = acc ++ [(k, v)] := by
      rw [insertTask, hv]
      exact mapSet_eq_append v hknot
    rw [h1]
    have hgoodtail : goodMap rest := fun q hq => hgood q (List.mem_cons_of_mem _ hq)
    have hnoduptail : (mapKeys rest).Nodup := by
      simp only [mapKeys, List.map_cons, List.nodup_cons] at hnodup
      exact hnodup.2
    have hknotrest : k ∉ mapKeys rest := by
      simp only [mapKeys, List.map_cons, List.nodup_cons] at hnodup
      exact hnodup.1
    have hdisj' : ∀ g ∈ mapKeys rest, g ∉ mapKeys (acc ++ [(k, v)]) := by
      intro g hg
      rw [mapKeys_append]
      intro hc
      rcases List.mem_append.mp hc with hc | hc
      · exact hdisj g (by simp [mapKeys]; exact Or.inr (by simpa [mapKeys] using hg)) hc
      · simp [mapKeys] at hc
        subst hc
        exact hknotrest hg
    rw [ih hgoodtail hnoduptail (acc ++ [(k, v)]) hdisj']
    simp

/-- Folding a task list whose records all carry pairwise distinct identifiers
into an accumulator disjoint from them appends the records in order. -/
theorem insertAll_snd_faithful : ∀ ts : List Task,
    (∀ u ∈ ts, (u.gid).isSome) → (ts.filterMap Task.gid).Nodup →
    ∀ acc : TaskMap, (∀ g ∈ ts.filterMap Task.gid, g ∉ mapKeys acc) →
    (insertAll acc ts).map Prod.snd = acc.map Prod.snd ++ ts := by
  intro ts
  induction ts with
  | nil =>
    intro _ _ acc _
    simp [insertAll]
  | cons t rest ih =>
    intro hsome hnodup acc hdisj
    obtain ⟨g, hg⟩ := Option.isSome_iff_exists.mp (hsome t (List.mem_cons_self _ _))
    have hmemg : g ∈ (t :: rest).filterMap Task.gid := by
      rw [List.filterMap_cons, hg]
      exact List.mem_cons_self _ _
    have hgnot : g ∉ mapKeys acc := hdisj g hmemg
    show (insertAll (insertTask acc t) rest).map Prod.snd = _
    have h1 : insertTask acc t = acc ++ [(g, t)] := by
      rw [insertTask, hg]
      exact mapSet_eq_append t hgnot
    rw [h1]
    have hfm : (t :: rest).filterMap Task.gid = g :: rest.filterMap Task.gid := by
      rw [List.filterMap_cons, hg]
    have hsometail : ∀ u ∈ rest, (u.gid).isSome :=
      fun u hu => hsome u (List.mem_cons_of_mem _ hu)
    have hnoduptail : (rest.filterMap Task.gid).Nodup := by
      rw [hfm] at hnodup
      exact (List.nodup_cons.mp hnodup).2
    have hgnotrest : g ∉ rest.filterMap Task.gid := by
      rw [hfm] at hnodup
      exact (List.nodup_cons.mp hnodup).1
    have hdisj' : ∀ g' ∈ rest.filterMap Task.gid, g' ∉ mapKeys (acc ++ [(g, t)]) := by
      intro g' hg'
      rw [mapKeys_append]
      intro hc
      rcases List.mem_append.mp hc with hc | hc
      · exact hdisj g' (by rw [hfm]; exact List.mem_cons_of_mem _ hg') hc
      · simp [mapKeys] at hc
        subst hc
        exact hgnotrest hg'
    rw [ih hsometail hnoduptail (acc ++ [(g, t)]) hdisj']
    simp

theorem gid_mem_keys_of_mem {t : Task} {ts : List Task} {g : String}
    {m : TaskMap} (h : t ∈ ts) (hg : t.gid = some g) :
    g ∈ mapKeys (insertAll m ts) := by
  by_contra hc
  have hnone : mapLookup g (insertAll m ts) = none :=
    (mapLookup_eq_none_iff _ _).mpr hc
  rw [mapLookup_insertAll] at hnone
  cases hl : lastWith g ts with
  | none => exact lastWith_ne_none h hg hl
  | some u =>
    rw [hl] at hnone
    simp [optOr] at hnone

/-- Concrete sample records used by witnesses and counterexamples. -/
def sampleOld : Task := ⟨some "1", none, "old", false, 0⟩

/-- An incoming record with the same identifier as `sampleOld`. -/
def sampleNew : Task := ⟨some "1", none, "new", true, 5⟩

/-- A record with a fresh identifier. -/
def sampleB : Task := ⟨some "2", none, "b", true, 7⟩

/-- C1: the merge implemented by `autoRefreshTasks` and `fetchTasksForToken`
realises the insertion-ordered-map reference semantics: (1) the record stored
under identifier `g` is the last incoming record with that identifier,
falling back to the last cached record with it (incoming overwrites cached);
(2) the identifiers of the merged output are the identifiers of the cached
records, first occurrence each, in their cached relative order, followed by
the genuinely new incoming identifiers in source-response order; (3) every
merged record carries an identifier, so records lacking one are dropped
rather than duplicated. -/
theorem merge_reference_semantics (existing incoming : List Task) :
    (∀ g, mapLookup g (mergedMap existing incoming)
        = optOr (lastWith g incoming) (lastWith g existing)) ∧
    ((mergeTasks existing incoming).filterMap Task.gid
        = newKeys [] existing ++ newKeys (newKeys [] existing) incoming) ∧
    (∀ t ∈ mergeTasks existing incoming, (t.gid).isSome) := by
  have hgood : goodMap (mergedMap existing incoming) :=
    goodMap_insertAll _ (goodMap_insertAll _ goodMap_nil)
  refine ⟨?_, ?_, ?_⟩
  · intro g
    show mapLookup g (insertAll (insertAll [] existing) incoming) = _
    rw [mapLookup_insertAll, mapLookup_insertAll]
    rw [show mapLookup g ([] : TaskMap) = none from rfl, optOr_none]
  · rw [mergeTasks, filterMap_gid_of_goodMap hgood]
    show mapKeys (insertAll (insertAll [] existing) incoming) = _
    rw [mapKeys_insertAll, mapKeys_insertAll]
    simp [mapKeys]
  · intro t ht
    rw [mergeTasks] at ht
    obtain ⟨p, hp, hpt⟩ := List.mem_map.mp ht
    have hgid := hgood p hp
    rw [← hpt, hgid]
    rfl

/-- Witness for C1 at concrete input: merging `[sampleNew, sampleB]` into
`[sampleOld]` keeps every record identified. -/
theorem merge_reference_witness :
    sampleNew ∈ mergeTasks [sampleOld] [sampleNew, sampleB] ∧
    (sampleNew.gid).isSome := by
  refine ⟨by decide, ?_⟩
  exact (merge_reference_semantics [sampleOld] [sampleNew, sampleB]).2.2
    sampleNew (by decide)

/-- C8: merge idempotence.  (1) Re-merging a record that is already cached
with identical field values leaves the cached list entirely unchanged,
provided the cache satisfies its own invariant (every record identified,
identifiers pairwise distinct).  (2) Merging the same incoming set twice
yields the same result as merging it once, for arbitrary inputs. -/
theorem merge_idempotent (e i : List Task) (t : Task) (g : String) :
    ((e.filterMap Task.gid).Nodup → (∀ u ∈ e, (u.gid).isSome) →
      t ∈ e → t.gid = some g → mergeTasks e [t] = e) ∧
    mergeTasks (mergeTasks e i) i = mergeTasks e i := by
  constructor
  · intro hnodup hsome hmem hg
    have hM0 : mapLookup g (insertAll [] e) = some t := by
      rw [mapLookup_insertAll, lastWith_unique hnodup hmem hg]
      rfl
    have hstep : mergedMap e [t] = insertAll [] e := by
      show insertTask (insertAll [] e) t = insertAll [] e
      rw [insertTask, hg]
      exact mapSet_self hM0
    rw [mergeTasks, hstep]
    have hf := insertAll_snd_faithful e hsome hnodup []
      (by intro g' _ hc; simp [mapKeys] at hc)
    simpa using hf
  · have hgood : goodMap (mergedMap e i) :=
      goodMap_insertAll _ (goodMap_insertAll _ goodMap_nil)
    have hnodup : (mapKeys (mergedMap e i)).Nodup :=
      nodupKeys_insertAll _ (nodupKeys_insertAll _ (by simp [mapKeys]))
    have hre : insertAll [] (mergeTasks e i) = mergedMap e i := by
      have h := insertAll_of_map_snd (mergedMap e i) hgood hnodup []
        (by intro g' _ hc; simp [mapKeys] at hc)
      simpa [mergeTasks] using h
    have hnil : newKeys (mapKeys (mergedMap e i)) i = [] := by
      apply newKeys_eq_nil
      intro u hu g' hg'
      exact gid_mem_keys_of_mem hu hg'
    have hid : insertAll (mergedMap e i) i = mergedMap e i := by
      apply mapExt
      · rw [mapKeys_insertAll, hnil]
        simp
      · intro q
        rw [mapLookup_insertAll]
        have hM : mapLookup q (mergedMap e i)
            = optOr (lastWith q i) (mapLookup q (insertAll [] e)) :=
          mapLookup_insertAll q i (insertAll [] e)
        rw [hM]
        cases lastWith q i <;> simp [optOr]
      · rw [mapKeys_insertAll, hnil]
        simpa using hnodup
    calc mergeTasks (mergeTasks e i) i
        = (insertAll (insertAll [] (mergeTasks e i)) i).map Prod.snd := rfl
      _ = (insertAll (mergedMap e i) i).map Prod.snd := by rw [hre]
      _ = (mergedMap e i).map Prod.snd := by rw [hid]
      _ = mergeTasks e i := rfl

/-- Witness for C8 at concrete input: re-merging `sampleB`, already cached,
changes nothing. -/
theorem merge_idempotent_witness :
    (([sampleOld, sampleB].filterMap Task.gid).Nodup ∧ sampleB ∈ [sampleOld, sampleB]) ∧
    mergeTasks [sampleOld, sampleB] [sampleB] = [sampleOld, sampleB] :=
  ⟨⟨by decide, by decide⟩,
    (merge_idempotent [sampleOld, sampleB] [sampleB] sampleB "2").1
      (by decide) (by decide) (by decide) (by decide)⟩

/-- The kind of a failure raised by the remote source.  The source code
dispatches on substrings of the thrown message ("401", "403", "429", "5",
"fetch"/"network", the two API phrasings, else); each kind stands for one
branch of that chain, `other` for the final else with the raw message. -/
inductive ErrorKind where
  | auth
  | forbidden
  | rateLimit
  | server
  | network
  | dateFormat
  | queryShape
  | other (msg : String)
deriving DecidableEq

/-- The message text of the underlying thrown error (used verbatim by the
generic handlers of `fetchTasksWithLookback`). -/
def errText : ErrorKind → String
  | .auth => "Asana API error: 401"
  | .forbidden => "Asana API error: 403"
  | .rateLimit => "Asana API error: 429"
  | .server => "Asana API error: 500"
  | .network => "Failed to fetch"
  | .dateFormat => "Timestamp must be in ISO-8601 format"
  | .queryShape => "Must specify exactly one of assignee or project"
  | .other msg => msg

/-- The user-facing message produced by the classification chain of
`fetchTasksForToken` (App.tsx lines 624-640). -/
def classifyError : ErrorKind → String
  | .auth => "Authentication failed: Your Asana token might be invalid or expired. Please get a new token."
  | .forbidden => "Access denied: You don\x27t have permission to access this Asana resource."
  | .rateLimit => "Rate limit exceeded: Too many requests to Asana. Please try again later."
  | .server => "Asana server error: The Asana service might be experiencing issues. Please try again later."
  | .network => "Network error: Could not connect to Asana. Please check your internet connection."
  | .dateFormat => "Date format error: We\x27ve fixed the date format issue. Please try again."
  | .queryShape => "API requirement: We\x27ve updated the API query format. Please try again."
  | .other msg => "Failed to fetch tasks from Asana: " ++ msg

/-- Message of the error thrown when the user record has no workspaces. -/
def noWorkspacesText : String :=
  "No workspaces found in your Asana account. Please ensure you have access to at least one workspace."

/-- Outcome of the user-lookup plus paginated task-fetch phase of one
operation, as a function of nothing but the queried lower bound:
`userErr` - the identity request threw or returned a non-OK status;
`noWorkspaces` - the user record carried no workspace;
`taskErr` - the task request threw inside the inner try;
`tasks` - the concatenated completed records of all pages. -/
inductive FetchPhase where
  | userErr (k : ErrorKind)
  | noWorkspaces
  | taskErr (k : ErrorKind)
  | tasks (records : List Task)
deriving DecidableEq

/-- True when the phase delivered no fresh records (a failure of any kind, or
an empty record list). -/
def FetchPhase.noNewData : FetchPhase → Bool
  | .tasks records => records.isEmpty
  | _ => true

/-- Thirty days in milliseconds (`getThirtyDaysAgoISOString`). -/
def thirtyDaysMs : Int := 2592000000

/-- One year in milliseconds (`getOneYearAgoISOString`; the source moves the
calendar year, modelled as a fixed 365-day span). -/
def oneYearMs : Int := 31536000000

/-- Five minutes in milliseconds (`FIVE_MINUTES_MS`). -/
def fiveMinutesMs : Int := 300000

/-- isCacheStale: the cache needs refreshing when the current time exceeds
the capture timestamp by strictly more than five minutes.  The source reads
`Date.now()` internally; the model takes it as the argument `now`. -/
def isCacheStale (timestamp : Int) (now : Int) : Bool :=
  decide (now - timestamp > 5 * 60 * 1000)

/-- generateMockTasks: `count` synthetic completed records; task `i` (from 1)
takes its name from the seven task types cyclically and a completion date a
random number of days in the past, `rand` standing for the `Math.random`
draws.  Mock records carry the local `id` field but no `gid`. -/
def taskTypes : List String :=
  ["Research", "Design", "Development", "Testing", "Deployment", "Documentation", "Meeting"]

def generateMockTasks (count : Nat) (rand : Nat → Nat) (today : Int) : List Task :=
  (List.range count).map fun i0 =>
    let i := i0 + 1
    { gid := none
      id := some ("task-" ++ toString i)
      name := ((taskTypes.get? (i % taskTypes.length)).getD "") ++ " Task " ++ toString i
      completed := true
      completed_at := today - (Int.ofNat (rand i)) * 86400000 }

/-- The `completed_since` bound of a regular `fetchTasksForToken` run: the
stored cursor when present, else thirty days before the clock reading `t0`. -/
def completedSinceOf (st : Storage) (t0 : Int) : Int :=
  st.lastSync.getD (t0 - thirtyDaysMs)

/-- autoRefreshTasks (App.tsx lines 106-179, Operation B): bail out on an
empty token; no-op (except resetting the refresh flag) when no cursor is
stored; fetch with the cursor as lower bound; on any failure or an empty
result change nothing; otherwise merge into the cached records, save the
merged snapshot and advance the cursor to the save-time clock reading `t1`.
No branch touches the error state. -/
def autoRefreshTasks (accessToken : String) (s : AppState)
    (fetchFn : Int → FetchPhase) (env : Env) : AppState :=
  if accessToken = "" then s
  else
    match s.storage.lastSync with
    | none => { s with autoRefreshing := false }
    | some cursor =>
      match fetchFn cursor with
      | .tasks records =>
        if records.length > 0 then
          let merged := mergeTasks (cacheTasks s.storage) records
          let st' : Storage :=
            { s.storage with cache := some ⟨merged, env.t1⟩, lastSync := some env.t1 }
          { s with displayed := merged, storage := st', autoRefreshing := false }
        else { s with autoRefreshing := false }
      | _ => { s with autoRefreshing := false }

/-- fetchTasksForToken (App.tsx lines 395-648, Operation C for a manual
refresh or initial load).  Demo token: fifteen mock records, storage never
touched.  Otherwise merge fetched records over the cached ones and persist,
or on an empty result show the cached records, or fall back to the
alternative query shapes `fb1` (assignee=me) and `fb2` (no date filter),
which are displayed but never persisted.  A user-lookup failure or missing
workspace is classified into a specific message and replaces the display
with twenty mock records; a task-fetch failure shows the twenty mock records
with no message (the inner catch never calls setError). -/
def fetchTasksForToken (accessToken : String) (s : AppState)
    (fetchFn : Int → FetchPhase) (fb1 fb2 : List Task) (env : Env) : AppState :=
  let s1 : AppState := { s with loading := true, error := none }
  if accessToken = "demo" then
    { s1 with displayed := generateMockTasks 15 env.rand env.t0, loading := false }
  else
    let existingTasks := cacheTasks s1.storage
    match fetchFn (completedSinceOf s1.storage env.t0) with
    | .userErr k =>
      { s1 with error := some (classifyError k),
                displayed := generateMockTasks 20 env.rand env.t0, loading := false }
    | .noWorkspaces =>
      { s1 with error := some (classifyError (.other noWorkspacesText)),
                displayed := generateMockTasks 20 env.rand env.t0, loading := false }
    | .taskErr _ =>
      { s1 with displayed := generateMockTasks 20 env.rand env.t0, loading := false }
    | .tasks records =>
      if records.length > 0 then
        let merged := mergeTasks existingTasks records
        let st' : Storage :=
          { s1.storage with cache := some ⟨merged, env.t1⟩, lastSync := some env.t1 }
        { s1 with displayed := merged, storage := st', loading := false }
      else if existingTasks.length > 0 then
        { s1 with displayed := existingTasks, loading := false }
      else if fb1.length > 0 then
        { s1 with displayed := fb1, loading := false }
      else if fb2.length > 0 then
        { s1 with displayed := fb2, loading := false }
      else
        { s1 with loading := false }

/-- fetchTasksWithLookback (App.tsx lines 213-307): fetch with an explicit
lower bound, never reading the cache or cursor; on success replace the
display and persist; on an empty result display an empty list; on failure
only set a generic message (no mock fallback, storage untouched). -/
def fetchTasksWithLookback (accessToken : String) (lookback : Int)
    (s : AppState) (fetchFn : Int → FetchPhase) (env : Env) : AppState :=
  let s1 : AppState := { s with loading := true, error := none }
  if accessToken = "demo" then
    { s1 with displayed := generateMockTasks 15 env.rand env.t0, loading := false }
  else
    match fetchFn lookback with
    | .userErr k =>
      { s1 with error := some ("Failed to connect to Asana: " ++ errText k),
                loading := false }
    | .noWorkspaces =>
      { s1 with error := some "No workspaces found in your Asana account",
                loading := false }
    | .taskErr k =>
      { s1 with error := some ("Failed to fetch tasks: " ++ errText k),
                loading := false }
    | .tasks records =>
      if records.length > 0 then
        let st' : Storage :=
          { s1.storage with cache := some ⟨records, env.t1⟩, lastSync := some env.t1 }
        { s1 with displayed := records, storage := st', loading := false }
      else
        { s1 with displayed := [], loading := false }

/-- fetchAllHistoricalTasks (App.tsx lines 202-210): when a token is present,
clear the cached tasks and the cursor, then run the lookback fetch with the
one-year-ago bound, ignoring any cursor. -/
def fetchAllHistoricalTasks (s : AppState) (fetchFn : Int → FetchPhase)
    (env : Env) : AppState :=
  match s.tokenState with
  | none => s
  | some tok =>
    let s1 : AppState :=
      { s with storage := { s.storage with cache := none, lastSync := none } }
    fetchTasksWithLookback tok (env.t0 - oneYearMs) s1 fetchFn env

/-- handleAsanaConnect (App.tsx lines 309-325): clear the error, set the
token state, persist the token unless it is the demo sentinel, and
unconditionally clear the cached tasks and cursor. -/
def handleAsanaConnect (newToken : String) (s : AppState) : AppState :=
  let st1 : Storage :=
    if newToken ≠ "demo" then { s.storage with token := some newToken } else s.storage
  { s with error := none,
           tokenState := some newToken,
           storage := { st1 with cache := none, lastSync := none } }

/-- JavaScript `String.prototype.trim`: strip leading and trailing
whitespace, modelled directly on the character list so that it evaluates by
kernel reduction. -/
def jsTrim (s : String) : String :=
  ⟨((s.data.dropWhile Char.isWhitespace).reverse.dropWhile
      Char.isWhitespace).reverse⟩

/-- handleConnect of AsanaConnect.tsx (lines 54-66) composed with the
`onConnect` callback `handleAsanaConnect`: a trimmed-empty input is replaced
by the demo sentinel (`token.trim() || 'demo'`); a non-demo token is saved
(the component saves it and the app saves it again). -/
def handleConnect (input : String) (s : AppState) : AppState :=
  let tokenToUse := if jsTrim input = "" then "demo" else jsTrim input
  let s1 : AppState :=
    if tokenToUse ≠ "demo" then
      { s with storage := { s.storage with token := some tokenToUse } }
    else s
  handleAsanaConnect tokenToUse s1

/-- Result of the mount effect of `App` (lines 60-88): which tasks are shown
synchronously and whether a background refresh is kicked off.  The effect
itself performs no network call; the refresh runs asynchronously afterwards. -/
structure MountResult where
  displayed : List Task
  refreshTriggered : Bool
deriving DecidableEq

/-- The mount effect: with a saved token and a non-empty cached snapshot the
cached tasks are shown immediately, and the background refresh is triggered
exactly when the snapshot's capture time is stale. -/
def appMount (st : Storage) (now : Int) : MountResult :=
  match st.token with
  | none => ⟨[], false⟩
  | some _ =>
    match st.cache with
    | none => ⟨[], false⟩
    | some c =>
      if c.tasks.length > 0 then
        if isCacheStale c.timestamp now then ⟨c.tasks, true⟩
        else ⟨c.tasks, false⟩
      else ⟨[], false⟩

theorem length_generateMockTasks (count : Nat) (rand : Nat → Nat) (today : Int) :
    (generateMockTasks count rand today).length = count := by
  simp [generateMockTasks]

/-- A remote source delivering exactly one fresh record. -/
def fetchOneB : Int → FetchPhase := fun _ => .tasks [sampleB]

/-- A remote source failing at the identity-lookup step with a network error. -/
def fetchFail : Int → FetchPhase := fun _ => .userErr .network

/-- A concrete run environment: operation start at t = 100 ms, saves at
t = 200 ms, mock offsets all zero. -/
def envRun : Env := ⟨fun _ => 0, 100, 200⟩

/-- Concrete stored state: token present, one cached record captured at 0,
cursor at 50. -/
def storRun : Storage := ⟨some "tok", some ⟨[sampleOld], 0⟩, some 50⟩

/-- Concrete app state over `storRun`. -/
def appRun : AppState := ⟨storRun, some "tok", [sampleOld], false, none, true⟩

/-- Concrete app state with no token but a non-empty cached snapshot. -/
def demoCexState : AppState :=
  ⟨⟨none, some ⟨[sampleOld], 0⟩, some 5⟩, none, [], false, none, false⟩

/-- C2: background refresh (Operation B) never mutates persisted state nor
surfaces an error when the cursor is absent, when the fetch fails in any way,
or when it returns zero records: storage (cache and cursor), the displayed
list and the error state are all preserved. -/
theorem background_refresh_preserving (tok : String) (s : AppState)
    (fetchFn : Int → FetchPhase) (env : Env) :
    (s.storage.lastSync = none ∨
      ∀ c, s.storage.lastSync = some c → (fetchFn c).noNewData = true) →
    (autoRefreshTasks tok s fetchFn env).storage = s.storage ∧
    (autoRefreshTasks tok s fetchFn env).displayed = s.displayed ∧
    (autoRefreshTasks tok s fetchFn env).error = s.error := by
  intro h
  have hcases : autoRefreshTasks tok s fetchFn env = s ∨
      autoRefreshTasks tok s fetchFn env = { s with autoRefreshing := false } := by
    by_cases htok : tok = ""
    · left
      simp [autoRefreshTasks, htok]
    · cases hls : s.storage.lastSync with
      | none =>
        right
        simp [autoRefreshTasks, htok, hls]
      | some c =>
        rcases h with h | h
        · rw [h] at hls
          cases hls
        · have hnn := h c hls
          cases hf : fetchFn c with
          | tasks records =>
            have hrec : records = [] := by
              rw [hf] at hnn
              simpa [FetchPhase.noNewData, List.isEmpty_iff] using hnn
            subst hrec
            right
            simp [autoRefreshTasks, htok, hls, hf]
          | userErr k =>
            right
            simp [autoRefreshTasks, htok, hls, hf]
          | noWorkspaces =>
            right
            simp [autoRefreshTasks, htok, hls, hf]
          | taskErr k =>
            right
            simp [autoRefreshTasks, htok, hls, hf]
  rcases hcases with hc | hc <;> rw [hc] <;> exact ⟨rfl, rfl, rfl⟩

/-- Witness for C2 at concrete input: a failing background fetch leaves the
whole storage unchanged. -/
theorem background_refresh_witness :
    (autoRefreshTasks "tok" appRun fetchFail envRun).storage = appRun.storage :=
  (background_refresh_preserving "tok" appRun fetchFail envRun
    (Or.inr (fun _ _ => rfl))).1

/-- C3 (amended): after every successful persisting fetch the stored cursor
equals the clock reading `t1` taken when the merged set is saved, i.e. the
fetch's completion time rather than its start time `t0`; since the saved
snapshot comes after the fetch started and the fetch started after any
earlier cursor was stored, the new cursor is greater than or equal to the
lower bound the fetch used.  Covers Operation B (`autoRefreshTasks` with a
non-empty result), the regular foreground path (`fetchTasksForToken`) and the
lookback path (`fetchTasksWithLookback`). -/
theorem cursor_save_time :
    (∀ (tok : String) (s : AppState) (fetchFn : Int → FetchPhase) (env : Env)
        (c : Int) (records : List Task),
      tok ≠ "" → s.storage.lastSync = some c → fetchFn c = .tasks records →
      records ≠ [] → c ≤ env.t0 → env.t0 ≤ env.t1 →
      (autoRefreshTasks tok s fetchFn env).storage.lastSync = some env.t1 ∧
        c ≤ env.t1) ∧
    (∀ (tok : String) (s : AppState) (fetchFn : Int → FetchPhase)
        (fb1 fb2 : List Task) (env : Env) (records : List Task),
      tok ≠ "demo" →
      fetchFn (completedSinceOf s.storage env.t0) = .tasks records →
      records ≠ [] → (∀ c, s.storage.lastSync = some c → c ≤ env.t0) →
      env.t0 ≤ env.t1 →
      (fetchTasksForToken tok s fetchFn fb1 fb2 env).storage.lastSync
          = some env.t1 ∧
        completedSinceOf s.storage env.t0 ≤ env.t1) ∧
    (∀ (tok : String) (lookback : Int) (s : AppState)
        (fetchFn : Int → FetchPhase) (env : Env) (records : List Task),
      tok ≠ "demo" → fetchFn lookback = .tasks records → records ≠ [] →
      lookback ≤ env.t1 →
      (fetchTasksWithLookback tok lookback s fetchFn env).storage.lastSync
          = some env.t1 ∧
        lookback ≤ env.t1) := by
  refine ⟨?_, ?_, ?_⟩
  · intro tok s fetchFn env c records htok hls hf hne h0 h1
    refine ⟨?_, le_trans h0 h1⟩
    have hpos : 0 < records.length := List.length_pos.mpr hne
    simp [autoRefreshTasks, htok, hls, hf, hpos]
  · intro tok s fetchFn fb1 fb2 env records htok hf hne hc h1
    have hpos : 0 < records.length := List.length_pos.mpr hne
    constructor
    · simp [fetchTasksForToken, htok, hf, hpos]
    · cases hls : s.storage.lastSync with
      | none =>
        simp only [completedSinceOf, hls, Option.getD_none, thirtyDaysMs]
        omega
      | some c =>
        have := hc c hls
        simp only [completedSinceOf, hls, Option.getD_some]
        omega
  · intro tok lookback s fetchFn env records htok hf hne h1
    have hpos : 0 < records.length := List.length_pos.mpr hne
    exact ⟨by simp [fetchTasksWithLookback, htok, hf, hpos], h1⟩

/-- Witness for C3 at concrete input: a background refresh from cursor 50
that fetched one record at t0 = 100 and saved at t1 = 200 stores cursor 200. -/
theorem cursor_save_time_witness :
    (autoRefreshTasks "tok" appRun fetchOneB envRun).storage.lastSync
        = some envRun.t1 ∧ (50 : Int) ≤ envRun.t1 :=
  (cursor_save_time).1 "tok" appRun fetchOneB envRun 50 [sampleB]
    (by decide) rfl rfl (by decide) (by decide) (by decide)

/-- C3 counterexample: in the same concrete run the stored cursor is 200,
the save-time clock reading, and not the fetch's start time 100 — `new
Date().toISOString()` is evaluated after the awaited network fetch, so the
claim that the cursor equals the fetch's start time fails. -/
theorem cursor_not_start_cex :
    (autoRefreshTasks "tok" appRun fetchOneB envRun).storage.lastSync
        = some 200 ∧
    envRun.t0 = 100 ∧
    ((some (200 : Int) : Option Int) ≠ some (100 : Int)) := by
  refine ⟨by decide, rfl, by decide⟩

/-- C4: fetchAllHistoricalTasks with a token present clears the cached tasks
and cursor first and fetches with the one-year-ago bound: on a fetch
returning `records` the displayed and persisted set is exactly `records`
(cache + K never occurs), the outcome is independent of whatever cache and
cursor were stored before, and on a failed fetch the cache and cursor remain
cleared. -/
theorem full_history_reset :
    (∀ (s : AppState) (fetchFn : Int → FetchPhase) (env : Env)
        (tok : String) (records : List Task),
      s.tokenState = some tok → tok ≠ "demo" →
      fetchFn (env.t0 - oneYearMs) = .tasks records → records ≠ [] →
      (fetchAllHistoricalTasks s fetchFn env).displayed = records ∧
      (fetchAllHistoricalTasks s fetchFn env).displayed.length = records.length ∧
      (fetchAllHistoricalTasks s fetchFn env).storage.cache
          = some ⟨records, env.t1⟩ ∧
      (∀ c d, fetchAllHistoricalTasks
          { s with storage := { s.storage with cache := c, lastSync := d } }
          fetchFn env
        = fetchAllHistoricalTasks s fetchFn env)) ∧
    (∀ (s : AppState) (fetchFn : Int → FetchPhase) (env : Env)
        (tok : String) (k : ErrorKind),
      s.tokenState = some tok → tok ≠ "demo" →
      fetchFn (env.t0 - oneYearMs) = .userErr k →
      (fetchAllHistoricalTasks s fetchFn env).storage.cache = none ∧
      (fetchAllHistoricalTasks s fetchFn env).storage.lastSync = none) := by
  constructor
  · intro s fetchFn env tok records hts htok hf hne
    have hpos : 0 < records.length := List.length_pos.mpr hne
    refine ⟨?_, ?_, ?_, ?_⟩
    · simp [fetchAllHistoricalTasks, hts, fetchTasksWithLookback, htok, hf, hpos]
    · simp [fetchAllHistoricalTasks, hts, fetchTasksWithLookback, htok, hf, hpos]
    · simp [fetchAllHistoricalTasks, hts, fetchTasksWithLookback, htok, hf, hpos]
    · intro c d
      simp [fetchAllHistoricalTasks, hts]
  · intro s fetchFn env tok k hts htok hf
    constructor
    · simp [fetchAllHistoricalTasks, hts, fetchTasksWithLookback, htok, hf]
    · simp [fetchAllHistoricalTasks, hts, fetchTasksWithLookback, htok, hf]

/-- Witness for C4 at concrete input: a full-history fetch returning one
record over a one-record cache yields exactly that one record. -/
theorem full_history_reset_witness :
    (fetchAllHistoricalTasks appRun fetchOneB envRun).displayed = [sampleB] ∧
    (fetchAllHistoricalTasks appRun fetchOneB envRun).displayed.length = 1 :=
  ⟨((full_history_reset).1 appRun fetchOneB envRun "tok" [sampleB]
      rfl (by decide) rfl (by decide)).1,
   ((full_history_reset).1 appRun fetchOneB envRun "tok" [sampleB]
      rfl (by decide) rfl (by decide)).2.1⟩

/-- C5 (amended): with the demo sentinel, both fetch operations short-circuit
to exactly fifteen synthetic records and leave the persisted storage
untouched (no cache read or write, nothing persisted, no use of the remote
source), and connecting with the demo sentinel does not save the credential —
but the connect handler does clear any existing cached tasks and cursor, as
it does for every connect. -/
theorem demo_mode_behavior (s : AppState) (fetchFn : Int → FetchPhase)
    (fb1 fb2 : List Task) (env : Env) (lookback : Int) :
    ((fetchTasksForToken "demo" s fetchFn fb1 fb2 env).storage = s.storage ∧
     (fetchTasksForToken "demo" s fetchFn fb1 fb2 env).displayed
        = generateMockTasks 15 env.rand env.t0 ∧
     (fetchTasksForToken "demo" s fetchFn fb1 fb2 env).displayed.length = 15) ∧
    ((fetchTasksWithLookback "demo" lookback s fetchFn env).storage = s.storage ∧
     (fetchTasksWithLookback "demo" lookback s fetchFn env).displayed.length = 15) ∧
    ((handleAsanaConnect "demo" s).storage.token = s.storage.token ∧
     (handleAsanaConnect "demo" s).storage.cache = none ∧
     (handleAsanaConnect "demo" s).storage.lastSync = none) := by
  refine ⟨⟨?_, ?_, ?_⟩, ⟨?_, ?_⟩, ⟨?_, ?_, ?_⟩⟩
  · simp [fetchTasksForToken]
  · simp [fetchTasksForToken]
  · simp [fetchTasksForToken, length_generateMockTasks]
  · simp [fetchTasksWithLookback]
  · simp [fetchTasksWithLookback, length_generateMockTasks]
  · simp [handleAsanaConnect]
  · simp [handleAsanaConnect]
  · simp [handleAsanaConnect]

/-- C5 counterexample: connecting with the demo sentinel while a cached
snapshot exists removes that snapshot from persisted storage
(`taskStorage.clearTasks()` runs unconditionally in `handleAsanaConnect`), so
it is not true that no cache write or persistence change happens during a
demo connect. -/
theorem demo_connect_clears_cache_cex :
    demoCexState.storage.cache = some ⟨[sampleOld], 0⟩ ∧
    demoCexState.storage.lastSync = some 5 ∧
    (handleAsanaConnect "demo" demoCexState).storage.cache = none ∧
    (handleAsanaConnect "demo" demoCexState).storage.lastSync = none :=
  ⟨rfl, rfl, rfl, rfl⟩

/-- C6 (amended): failure handling of the foreground paths.  In
`fetchTasksForToken` (manual refresh / initial load) an identity-phase
failure is classified by kind into its specific message and the display
falls back to twenty synthetic placeholder records, while a task-phase
failure falls back to the twenty placeholders with no user-facing message;
in both cases the stored credential and cached tasks are untouched.  In
`fetchTasksWithLookback` (the full-history path) a failure only sets a
generic message: no placeholder fallback, display and storage unchanged —
and on a full-history request the cache has already been cleared before the
fetch, so a failure there does leave the cache empty. -/
theorem foreground_failure_handling :
    (∀ (tok : String) (s : AppState) (fetchFn : Int → FetchPhase)
        (fb1 fb2 : List Task) (env : Env) (k : ErrorKind),
      tok ≠ "demo" → fetchFn (completedSinceOf s.storage env.t0) = .userErr k →
      (fetchTasksForToken tok s fetchFn fb1 fb2 env).error
          = some (classifyError k) ∧
      (fetchTasksForToken tok s fetchFn fb1 fb2 env).displayed
          = generateMockTasks 20 env.rand env.t0 ∧
      (fetchTasksForToken tok s fetchFn fb1 fb2 env).storage = s.storage) ∧
    (∀ (tok : String) (s : AppState) (fetchFn : Int → FetchPhase)
        (fb1 fb2 : List Task) (env : Env) (k : ErrorKind),
      tok ≠ "demo" → fetchFn (completedSinceOf s.storage env.t0) = .taskErr k →
      (fetchTasksForToken tok s fetchFn fb1 fb2 env).error = none ∧
      (fetchTasksForToken tok s fetchFn fb1 fb2 env).displayed
          = generateMockTasks 20 env.rand env.t0 ∧
      (fetchTasksForToken tok s fetchFn fb1 fb2 env).storage = s.storage) ∧
    (∀ (tok : String) (lookback : Int) (s : AppState)
        (fetchFn : Int → FetchPhase) (env : Env) (k : ErrorKind),
      tok ≠ "demo" → fetchFn lookback = .userErr k →
      (fetchTasksWithLookback tok lookback s fetchFn env).storage = s.storage ∧
      (fetchTasksWithLookback tok lookback s fetchFn env).displayed
          = s.displayed ∧
      (fetchTasksWithLookback tok lookback s fetchFn env).error
          = some ("Failed to connect to Asana: " ++ errText k)) := by
  refine ⟨?_, ?_, ?_⟩
  · intro tok s fetchFn fb1 fb2 env k htok hf
    refine ⟨?_, ?_, ?_⟩ <;> simp [fetchTasksForToken, htok, hf]
  · intro tok s fetchFn fb1 fb2 env k htok hf
    refine ⟨?_, ?_, ?_⟩ <;> simp [fetchTasksForToken, htok, hf]
  · intro tok lookback s fetchFn env k htok hf
    refine ⟨?_, ?_, ?_⟩ <;> simp [fetchTasksWithLookback, htok, hf]

/-- Witness for C6 at concrete input: a network failure of the regular
foreground fetch surfaces the network message, shows twenty placeholders and
leaves storage untouched. -/
theorem foreground_failure_witness :
    (fetchTasksForToken "tok" appRun fetchFail [] [] envRun).error
        = some (classifyError .network) ∧
    (fetchTasksForToken "tok" appRun fetchFail [] [] envRun).storage
        = appRun.storage :=
  ⟨((foreground_failure_handling).1 "tok" appRun fetchFail [] [] envRun
      .network (by decide) rfl).1,
   ((foreground_failure_handling).1 "tok" appRun fetchFail [] [] envRun
      .network (by decide) rfl).2.2⟩

/-- C6 counterexample: a failing full-history request does not leave the
cached tasks unchanged (the reset cleared them before fetching, and the
failure handler does not restore them), and it does not fall back to the
twenty-record placeholder set — the display keeps its single previous
record. -/
theorem full_history_failure_cex :
    appRun.storage.cache = some ⟨[sampleOld], 0⟩ ∧
    (fetchAllHistoricalTasks appRun fetchFail envRun).storage.cache = none ∧
    (fetchAllHistoricalTasks appRun fetchFail envRun).displayed = [sampleOld] ∧
    (fetchAllHistoricalTasks appRun fetchFail envRun).displayed.length ≠ 20 :=
  ⟨rfl, rfl, rfl, by decide⟩

/-- C7: the staleness predicate holds exactly when the current time exceeds
the capture time by strictly more than five minutes; a ten-minute-old cache
is stale, a one-minute-old cache is fresh; and on mount with a saved token
and a non-empty cached snapshot the cached tasks are displayed immediately
(the mount effect makes no network call) and the background refresh is
triggered exactly when the snapshot is stale. -/
theorem staleness_gate :
    (∀ ts now : Int, isCacheStale ts now = true ↔ now - ts > fiveMinutesMs) ∧
    (∀ now : Int, isCacheStale (now - 600000) now = true) ∧
    (∀ now : Int, isCacheStale (now - 60000) now = false) ∧
    (∀ (st : Storage) (now : Int) (tok : String) (c : TaskCache),
      st.token = some tok → st.cache = some c → c.tasks ≠ [] →
      appMount st now = ⟨c.tasks, isCacheStale c.timestamp now⟩) := by
  refine ⟨?_, ?_, ?_, ?_⟩
  · intro ts now
    simp [isCacheStale, fiveMinutesMs]
  · intro now
    simp [isCacheStale]
  · intro now
    simp [isCacheStale]
  · intro st now tok c htok hcache hne
    have hpos : 0 < c.tasks.length := List.length_pos.mpr hne
    cases hstale : isCacheStale c.timestamp now <;>
      simp [appMount, htok, hcache, hpos, hstale]

/-- Witness for C7 at concrete input: a snapshot captured at 0 and mounted at
t = 700000 ms (older than five minutes) is shown immediately and triggers
the background refresh. -/
theorem staleness_gate_witness :
    appMount storRun 700000 = ⟨[sampleOld], true⟩ := by
  have h := (staleness_gate).2.2.2 storRun 700000 "tok" ⟨[sampleOld], 0⟩
    rfl rfl (by decide)
  rw [h]
  decide

/-- C9: submitting the connect form with an empty or whitespace-only
credential does not fail: the trimmed-empty input is replaced by the demo
sentinel, the whole connect flow behaves exactly as connecting with "demo",
no credential is persisted, and no error is raised. -/
theorem blank_connect_demo (input : String) (s : AppState) :
    jsTrim input = "" →
    handleConnect input s = handleConnect "demo" s ∧
    (handleConnect input s).storage.token = s.storage.token ∧
    (handleConnect input s).tokenState = some "demo" ∧
    (handleConnect input s).error = none := by
  intro h
  have hdemo : jsTrim "demo" = "demo" := by decide
  refine ⟨?_, ?_, ?_, ?_⟩ <;>
    simp [handleConnect, handleAsanaConnect, h, hdemo]

/-- Witness for C9 at concrete input: a whitespace-only credential connects
in demo mode without storing a token. -/
theorem blank_connect_demo_witness :
    jsTrim "   " = "" ∧
    (handleConnect "   " demoCexState).tokenState = some "demo" ∧
    (handleConnect "   " demoCexState).storage.token
        = demoCexState.storage.token :=
  ⟨by decide,
   (blank_connect_demo "   " demoCexState (by decide)).2.2.1,
   (blank_connect_demo "   " demoCexState (by decide)).2.1⟩

/-- C10: the placeholder sets are distinguishable by size: every failure
fallback of `fetchTasksForToken` with a non-demo credential (identity-phase
or task-phase) displays exactly twenty synthetic records, while demo mode
displays exactly fifteen, and twenty is not fifteen. -/
theorem error_placeholder_sizes :
    (∀ (tok : String) (s : AppState) (fetchFn : Int → FetchPhase)
        (fb1 fb2 : List Task) (env : Env) (k : ErrorKind),
      tok ≠ "demo" → fetchFn (completedSinceOf s.storage env.t0) = .userErr k →
      (fetchTasksForToken tok s fetchFn fb1 fb2 env).displayed.length = 20) ∧
    (∀ (tok : String) (s : AppState) (fetchFn : Int → FetchPhase)
        (fb1 fb2 : List Task) (env : Env) (k : ErrorKind),
      tok ≠ "demo" → fetchFn (completedSinceOf s.storage env.t0) = .taskErr k →
      (fetchTasksForToken tok s fetchFn fb1 fb2 env).displayed.length = 20) ∧
    (∀ (s : AppState) (fetchFn : Int → FetchPhase) (fb1 fb2 : List Task)
        (env : Env),
      (fetchTasksForToken "demo" s fetchFn fb1 fb2 env).displayed.length = 15) ∧
    (20 : Nat) ≠ 15 := by
  refine ⟨?_, ?_, ?_, by decide⟩
  · intro tok s fetchFn fb1 fb2 env k htok hf
    simp [fetchTasksForToken, htok, hf, length_generateMockTasks]
  · intro tok s fetchFn fb1 fb2 env k htok hf
    simp [fetchTasksForToken, htok, hf, length_generateMockTasks]
  · intro s fetchFn fb1 fb2 env
    simp [fetchTasksForToken, length_generateMockTasks]

/-- Witness for C10 at concrete input: the failing run shows twenty
placeholders, the demo run fifteen. -/
theorem error_placeholder_sizes_witness :
    (fetchTasksForToken "tok" appRun fetchFail [] [] envRun).displayed.length
        = 20 ∧
    (fetchTasksForToken "demo" appRun fetchFail [] [] envRun).displayed.length
        = 15 :=
  ⟨(error_placeholder_sizes).1 "tok" appRun fetchFail [] [] envRun .network
      (by decide) rfl,
   (error_placeholder_sizes).2.2.1 appRun fetchFail [] [] envRun⟩

end Garden
